import Mathlib

/-!
Verification development for the per-device asynchronous command dispatcher of
the tinxylocal integration (custom_components/tinxylocal/hub.py).

The dispatcher (class TinxyLocalHub) keeps, per device id, a queue of pending
commands, a last-command timestamp, and a worker task created with the mqtt
password of the first admission.  We embed its state shallowly:

  * `QueuedCommand` mirrors the Python dataclass of the same name;
  * `HubState` gathers the dictionaries `device_queues`, `device_last_command`,
    the workers' captured credentials, the `_shutdown` flag and the three
    configuration constants set in `__init__`;
  * asyncio futures become an association list `futures` from a future id to a
    `FutureState`; `set_result` / `set_exception` guarded by `not done()` is
    `resolveFuture`, which only changes a pending entry;
  * `queueCommand` embeds `_queue_command` (shutdown check, lazy creation of
    queue + worker, capacity check, deduplication loop, append);
  * `workerIter` embeds one iteration of the `_device_worker` loop; wall-clock
    reads (`time.time()`) and the outcome of the CLI subprocess are supplied by
    an oracle, and the real-time effect of the rate-limit sleep is captured by
    the side condition `oracleOK`;
  * `shutdown` embeds `TinxyLocalHub.shutdown` (sets the flag and cancels the
    workers; it touches neither the queues nor the futures).

In asyncio's cooperative scheduling every code segment between awaits runs
atomically, so interleavings are modelled as arbitrary sequences of whole
admission / worker-iteration / shutdown operations (`sysStep`).

Wall-clock samples (`time.time()` values) are modelled as integers (clock
ticks of arbitrary resolution): every comparison and subtraction the code
performs on timestamps is linear-ordered-ring arithmetic, valid verbatim over
`Int`, and this keeps every definition kernel-computable for the concrete
runs below.
-/

abbrev DeviceId := String

abbrev FutureId := Nat

/-- Errors raised as `TinxyLocalException` in hub.py, identified by message. -/
inductive TinxyError
  | superseded    -- "Superseded by newer command"
  | timeout       -- "Command timeout"
  | queueFull     -- "Command queue full"
  | shuttingDown  -- "Hub is shutting down"
deriving Repr, DecidableEq

/-- The state of an asyncio future: unresolved, resolved by `set_result` with a
boolean, or resolved by `set_exception`. -/
inductive FutureState
  | pending
  | result (b : Bool)
  | error (e : TinxyError)
deriving Repr, DecidableEq

/-- Mirrors the `QueuedCommand` dataclass.  In hub.py `future` is optional but
`_queue_command` always attaches a fresh future before enqueuing, so here it is
the id of that future. -/
structure QueuedCommand where
  command_type : String
  relay_number : Int
  action : Option Int
  brightness : Option Int
  future : FutureId
  timestamp : Int
deriving Repr, DecidableEq

/-- Lookup in an association list (Python dict read). -/
def alookup {α β : Type} [DecidableEq α] : List (α × β) → α → Option β
  | [], _ => none
  | (k', v) :: rest, k => if k' = k then some v else alookup rest k

/-- Write to an association list (Python dict assignment: replace in place, or
append a new binding at the end). -/
def aset {α β : Type} [DecidableEq α] : List (α × β) → α → β → List (α × β)
  | [], k, v => [(k, v)]
  | (k', v') :: rest, k, v =>
      if k' = k then (k, v) :: rest else (k', v') :: aset rest k v

/-- `if fut and not fut.done(): fut.set_result / fut.set_exception` — resolves
the future only when it is still pending. -/
def resolveFuture (fs : List (FutureId × FutureState)) (fid : FutureId)
    (v : FutureState) : List (FutureId × FutureState) :=
  match alookup fs fid with
  | some FutureState.pending => aset fs fid v
  | _ => fs

/-- Environment for one call into the CLI transport: whether the architecture
table yields an executable, and the outcomes of the (up to two) subprocess
invocations, `true` meaning return code 0. -/
structure ExecEnv where
  arch_supported : Bool
  cli_result : Bool
  fallback_cli_result : Bool
deriving Repr, DecidableEq

/-- Embeds `tinxy_toggle`: an action other than 0 or 1 returns `False` before
any subprocess is spawned; an unsupported architecture likewise returns
`False`; otherwise the result is the subprocess outcome.  The first component
records whether the CLI executable was invoked. -/
def tinxy_toggle (env : ExecEnv) (action : Option Int) : Bool × Bool :=
  if action = some 0 ∨ action = some 1 then
    if env.arch_supported then (true, env.cli_result) else (false, false)
  else (false, false)

/-- Embeds `tinxy_set_brightness`: unsupported architecture returns `False`;
a failed brightness subprocess falls back to exactly one `tinxy_toggle` with
action 1, reporting the fallback's outcome. -/
def tinxy_set_brightness (env : ExecEnv) : Bool × Bool :=
  if env.arch_supported then
    if env.cli_result then (true, true)
    else (true, (tinxy_toggle
      { env with cli_result := env.fallback_cli_result } (some 1)).2)
  else (false, false)

/-- The dispatcher state: the per-device dictionaries of `TinxyLocalHub`, the
futures heap, the shutdown flag and the configuration constants. -/
structure HubState where
  device_queues : List (DeviceId × List QueuedCommand)
  device_last_command : List (DeviceId × Int)
  worker_creds : List (DeviceId × String)
  futures : List (FutureId × FutureState)
  next_future : FutureId
  shutdownFlag : Bool
  command_timeout : Int
  queue_limit : Nat
  rate_limit_delay : Int
deriving Repr, DecidableEq

/-- The state after `__init__`: empty registries and the default constants
`command_timeout = 30.0`, `queue_limit = 50`, `rate_limit_delay = 1.0`. -/
def initState : HubState :=
  { device_queues := [], device_last_command := [], worker_creds := [],
    futures := [], next_future := 0, shutdownFlag := false,
    command_timeout := 30, queue_limit := 50, rate_limit_delay := 1 }

/-- What `_queue_command` does for the caller: return a future to await, or
raise a `TinxyLocalException` directly. -/
inductive AdmitResult
  | queued (fid : FutureId)
  | raised (e : TinxyError)
deriving Repr, DecidableEq

/-- The `while queue:` deduplication loop of `_queue_command`: pop each command
off the front; a command for the same relay has its future resolved with the
Superseded error, any other command is appended to `new_queue`. -/
def dedupLoop (queue : List QueuedCommand) (relay_number : Int)
    (new_queue : List QueuedCommand) (fs : List (FutureId × FutureState)) :
    List QueuedCommand × List (FutureId × FutureState) :=
  match queue with
  | [] => (new_queue, fs)
  | cmd :: rest =>
      if cmd.relay_number = relay_number then
        dedupLoop rest relay_number new_queue
          (resolveFuture fs cmd.future (FutureState.error TinxyError.superseded))
      else
        dedupLoop rest relay_number (new_queue ++ [cmd]) fs

/-- Embeds `_queue_command` (hub.py lines 379-460): shutdown check, lazy
creation of queue / last-command entry / worker (which captures `mqttpass`),
capacity check against `queue_limit`, the deduplication pass, then creation of
a fresh pending future and appending the new command at the tail. -/
def queueCommand (s : HubState) (device_id : DeviceId) (mqttpass : String)
    (command_type : String) (relay_number : Int)
    (action brightness : Option Int) (now : Int) (deduplicate : Bool) :
    HubState × AdmitResult :=
  if s.shutdownFlag then (s, AdmitResult.raised TinxyError.shuttingDown)
  else
    let s0 : HubState :=
      if (alookup s.device_queues device_id).isNone then
        { s with
            device_queues := aset s.device_queues device_id [],
            device_last_command := aset s.device_last_command device_id 0,
            worker_creds := aset s.worker_creds device_id mqttpass }
      else s
    let queue := (alookup s0.device_queues device_id).getD []
    if s0.queue_limit ≤ queue.length then
      (s0, AdmitResult.raised TinxyError.queueFull)
    else
      let dd :=
        if deduplicate then dedupLoop queue relay_number [] s0.futures
        else (queue, s0.futures)
      let fid := s0.next_future
      let cmd : QueuedCommand :=
        { command_type := command_type, relay_number := relay_number,
          action := action, brightness := brightness, future := fid,
          timestamp := now }
      ({ s0 with
          device_queues := aset s0.device_queues device_id (dd.1 ++ [cmd]),
          futures := dd.2 ++ [(fid, FutureState.pending)],
          next_future := fid + 1 },
       AdmitResult.queued fid)

/-- `queue_toggle_command`: admits a toggle command with the default
deduplication. -/
def queue_toggle_command (s : HubState) (device_id : DeviceId)
    (mqttpass : String) (relay_number : Int) (action : Int) (now : Int) :
    HubState × AdmitResult :=
  queueCommand s device_id mqttpass "toggle" relay_number (some action) none
    now true

/-- `queue_brightness_command`: admits a brightness command with the default
deduplication. -/
def queue_brightness_command (s : HubState) (device_id : DeviceId)
    (mqttpass : String) (relay_number : Int) (brightness : Int) (now : Int) :
    HubState × AdmitResult :=
  queueCommand s device_id mqttpass "brightness" relay_number none
    (some brightness) now true

/-- Observable outcome of one worker-loop iteration. -/
inductive WorkerEvent
  | stopped
  | idle
  | timedOut (c : QueuedCommand)
  | executed (c : QueuedCommand) (cred : String) (cli_invoked : Bool)
      (result : Bool) (t_start t_done : Int)
deriving Repr, DecidableEq

/-- Oracle for one worker iteration: the `time.time()` samples at the
rate-limit check, at the timeout check after the dequeue, and at the
last-command update after execution, plus the transport environment. -/
structure WorkerIterOracle where
  t_check : Int
  t_pop : Int
  t_done : Int
  env : ExecEnv
deriving Repr, DecidableEq

/-- The worker's dispatch on `command.command_type`: "toggle" calls
`tinxy_toggle` with the command's action, "brightness" calls
`tinxy_set_brightness`, any other type yields result `False` without invoking
the CLI (first component: CLI invoked; second: boolean result). -/
def execOut (command : QueuedCommand) (env : ExecEnv) : Bool × Bool :=
  if command.command_type = "toggle" then tinxy_toggle env command.action
  else if command.command_type = "brightness" then tinxy_set_brightness env
  else (false, false)

/-- Embeds one iteration of `_device_worker` (hub.py lines 466-528): stop on
the shutdown flag, sleep briefly on an empty queue, otherwise (after the
rate-limit sleep, whose timing guarantee lives in `oracleOK`) pop the head
command; if it has waited strictly longer than `command_timeout` resolve it
with the Timeout error and continue; otherwise execute it via the CLI with the
credential captured at worker creation, set `device_last_command` to the
completion-time sample, and resolve its future with the boolean result. -/
def workerIter (s : HubState) (device_id : DeviceId) (o : WorkerIterOracle) :
    HubState × WorkerEvent :=
  if s.shutdownFlag then (s, WorkerEvent.stopped)
  else
    match alookup s.device_queues device_id with
    | none => (s, WorkerEvent.idle)
    | some [] => (s, WorkerEvent.idle)
    | some (command :: rest) =>
        let s1 : HubState :=
          { s with device_queues := aset s.device_queues device_id rest }
        if s.command_timeout < o.t_pop - command.timestamp then
          let fs1 := resolveFuture s1.futures command.future
            (FutureState.error TinxyError.timeout)
          ({ s1 with futures := fs1 }, WorkerEvent.timedOut command)
        else
          let cred := (alookup s.worker_creds device_id).getD ""
          let out := execOut command o.env
          let lc1 := aset s1.device_last_command device_id o.t_done
          let fs1 := resolveFuture s1.futures command.future
            (FutureState.result out.2)
          ({ s1 with device_last_command := lc1, futures := fs1 },
           WorkerEvent.executed command cred out.1 out.2 o.t_pop o.t_done)

/-- Embeds `TinxyLocalHub.shutdown`: it only sets `_shutdown` and cancels the
worker tasks; it does not touch `device_queues` or any future. -/
def shutdown (s : HubState) : HubState :=
  { s with shutdownFlag := true }

/-- The device's `device_last_command` entry (0.0 when absent, the value the
first admission initialises it to). -/
def lastOf (s : HubState) (d : DeviceId) : Int :=
  (alookup s.device_last_command d).getD 0

/-- Length of the device's pending queue (0 when the device is unknown). -/
def queueLen (s : HubState) (d : DeviceId) : Nat :=
  ((alookup s.device_queues d).getD []).length

/-- Short constructor for the command `_queue_command` appends. -/
def mkCommand (ct : String) (r : Int) (a b : Option Int) (fid : FutureId)
    (now : Int) : QueuedCommand :=
  { command_type := ct, relay_number := r, action := a, brightness := b,
    future := fid, timestamp := now }

/-- One cooperative-scheduling step of the whole system: an admission (with
the default deduplication, as both public entry points use), one iteration of
some device's worker, or the shutdown call.  Worker iterations emit their
observable event tagged with the device id. -/
inductive SysOp
  | enqueue (d : DeviceId) (m ct : String) (r : Int) (a b : Option Int) (now : Int)
  | work (d : DeviceId) (o : WorkerIterOracle)
  | halt
deriving Repr, DecidableEq

def sysStep (s : HubState) : SysOp → HubState × List (DeviceId × WorkerEvent)
  | SysOp.enqueue d m ct r a b now => ((queueCommand s d m ct r a b now true).1, [])
  | SysOp.work d o => ((workerIter s d o).1, [(d, (workerIter s d o).2)])
  | SysOp.halt => (shutdown s, [])

def sysRun : HubState → List SysOp → HubState × List (DeviceId × WorkerEvent)
  | s, [] => (s, [])
  | s, op :: ops =>
      ((sysRun (sysStep s op).1 ops).1,
       (sysStep s op).2 ++ (sysRun (sysStep s op).1 ops).2)

/-- Real-time side conditions of one step, given the previous wall-clock
sample `t_prev`: time samples are monotone, and — the effect of the
`asyncio.sleep` in the rate-limit branch — when less than `rate_limit_delay`
has elapsed since the device's `device_last_command` at the check, the dequeue
happens no earlier than `device_last_command + rate_limit_delay`. -/
def opOK (s : HubState) (t_prev : Int) : SysOp → Bool
  | SysOp.enqueue _ _ _ _ _ _ now => decide (t_prev ≤ now)
  | SysOp.work d o =>
      decide (t_prev ≤ o.t_check) && decide (o.t_check ≤ o.t_pop) &&
      decide (o.t_pop ≤ o.t_done) &&
      (if o.t_check - lastOf s d < s.rate_limit_delay
       then decide (lastOf s d + s.rate_limit_delay ≤ o.t_pop) else true)
  | SysOp.halt => true

/-- The wall-clock sample at which a step finishes. -/
def opTime (t_prev : Int) : SysOp → Int
  | SysOp.enqueue _ _ _ _ _ _ now => now
  | SysOp.work _ o => o.t_done
  | SysOp.halt => t_prev

def sysOK : HubState → Int → List SysOp → Bool
  | _, _, [] => true
  | s, t, op :: ops => opOK s t op && sysOK (sysStep s op).1 (opTime t op) ops

/-- The events of device `d`'s worker, in order. -/
def deviceEvents (d : DeviceId) (evs : List (DeviceId × WorkerEvent)) :
    List WorkerEvent :=
  (evs.filter (fun p => decide (p.1 = d))).map Prod.snd

/-- Every execution starts at least `delay` after the previous execution's
completion sample (the first may start at least `delay` after the reference
point carried in the accumulator). -/
def execSpacedAux (delay : Int) : Option Int → List WorkerEvent → Bool
  | _, [] => true
  | prev, WorkerEvent.executed _ _ _ _ t_start t_done :: rest =>
      (match prev with
       | none => true
       | some pd => decide (pd + delay ≤ t_start)) &&
      execSpacedAux delay (some t_done) rest
  | prev, _ :: rest => execSpacedAux delay prev rest

/-- The per-device registries are created together: a device with no queue
entry has no `device_last_command` entry either (true of every state the hub
reaches, since `_queue_command` creates both at once). -/
def lcSync (s : HubState) (d : DeviceId) : Prop :=
  alookup s.device_queues d = none → alookup s.device_last_command d = none

/-- Per-relay uniqueness: at most one queued command per relay number. -/
def atMostOnePerRelay (q : List QueuedCommand) : Prop :=
  ∀ r : Int, (q.filter (fun c => decide (c.relay_number = r))).length ≤ 1

/-- A state whose single device queue is at capacity (limit 1) and already
holds a command for relay 1 whose future is pending. -/
def capState : HubState :=
  { device_queues := [("dev", [mkCommand "toggle" 1 (some 1) none 0 0])],
    device_last_command := [("dev", 0)], worker_creds := [("dev", "pw")],
    futures := [(0, FutureState.pending)], next_future := 1,
    shutdownFlag := false, command_timeout := 30, queue_limit := 1,
    rate_limit_delay := 1 }

/-- A state with two pending queued commands (relays 1 and 2) on one device. -/
def dedupState : HubState :=
  { device_queues := [("dev",
      [mkCommand "toggle" 1 (some 1) none 0 0,
       mkCommand "toggle" 2 (some 1) none 1 0])],
    device_last_command := [("dev", 0)], worker_creds := [("dev", "pw")],
    futures := [(0, FutureState.pending), (1, FutureState.pending)],
    next_future := 2, shutdownFlag := false, command_timeout := 30,
    queue_limit := 50, rate_limit_delay := 1 }

def exEnv : ExecEnv :=
  { arch_supported := true, cli_result := true, fallback_cli_result := true }

def exOracle1 : WorkerIterOracle :=
  { t_check := 0, t_pop := 1, t_done := 2, env := exEnv }

def exOracle2 : WorkerIterOracle :=
  { t_check := 2, t_pop := 3, t_done := 4, env := exEnv }

/-- A concrete run: enqueue relay 1, execute it, enqueue relay 2, execute it. -/
def exOpsC6 : List SysOp :=
  [SysOp.enqueue "dev" "pw" "toggle" 1 (some 1) none 0,
   SysOp.work "dev" exOracle1,
   SysOp.enqueue "dev" "pw" "toggle" 2 (some 0) none 2,
   SysOp.work "dev" exOracle2]

/-- A state whose single queued command was enqueued at time 0. -/
def staleState : HubState :=
  { device_queues := [("dev", [mkCommand "toggle" 1 (some 1) none 0 0])],
    device_last_command := [("dev", 0)], worker_creds := [("dev", "pw")],
    futures := [(0, FutureState.pending)], next_future := 1,
    shutdownFlag := false, command_timeout := 30, queue_limit := 50,
    rate_limit_delay := 1 }

/-- An oracle sampling the clock at tick 31 — more than `command_timeout`
after the stale command's enqueue time 0. -/
def staleOracle : WorkerIterOracle :=
  { t_check := 31, t_pop := 31, t_done := 31, env := exEnv }

/-- The hub state right after admitting a toggle with the invalid action 5. -/
def invalidCmdState : HubState :=
  (queue_toggle_command initState "dev" "pw" 1 5 0).1

/-- A state whose device "dev" is registered with an empty queue. -/
def emptyDevState : HubState :=
  { device_queues := [("dev", [])], device_last_command := [("dev", 0)],
    worker_creds := [("dev", "pw")], futures := [], next_future := 0,
    shutdownFlag := false, command_timeout := 30, queue_limit := 50,
    rate_limit_delay := 1 }

example :
    (queue_toggle_command initState "dev" "pw" 1 1 0).2 =
      AdmitResult.queued 0 := by decide

example :
    queueLen (queue_toggle_command initState "dev" "pw" 1 1 0).1 "dev" = 1 := by
  decide

/-! ### Association-list and future-resolution lemmas -/

theorem alookup_aset {α β : Type} [DecidableEq α] (l : List (α × β))
    (k k' : α) (v : β) :
    alookup (aset l k v) k' = if k = k' then some v else alookup l k' := by
  induction l with
  | nil => simp [aset, alookup]
  | cons p rest ih =>
      obtain ⟨k0, v0⟩ := p
      by_cases h0 : k0 = k
      · subst h0
        by_cases h1 : k0 = k'
        · subst h1; simp [aset, alookup]
        · simp [aset, alookup, h1]
      · by_cases h1 : k0 = k'
        · subst h1
          have hkk : ¬ k = k0 := fun h => h0 h.symm
          simp [aset, alookup, h0, hkk]
        · simp only [aset, alookup, if_neg h0, if_neg h1]
          exact ih

theorem alookup_append {α β : Type} [DecidableEq α] (l l' : List (α × β))
    (k : α) :
    alookup (l ++ l') k =
      match alookup l k with
      | some v => some v
      | none => alookup l' k := by
  induction l with
  | nil => simp [alookup]
  | cons p rest ih =>
      obtain ⟨k0, v0⟩ := p
      by_cases h : k0 = k
      · simp [alookup, h]
      · simp [alookup, h, ih]

theorem resolveFuture_lookup (fs : List (FutureId × FutureState))
    (fid f : FutureId) (v : FutureState) :
    alookup (resolveFuture fs fid v) f =
      if alookup fs fid = some FutureState.pending ∧ fid = f then some v
      else alookup fs f := by
  unfold resolveFuture
  rcases h : alookup fs fid with _ | w
  · simp [h]
  · cases w with
    | pending =>
        rw [alookup_aset]
        by_cases hf : fid = f
        · simp [hf, h]
        · simp [hf, h]
    | result b => simp [h]
    | error e => simp [h]

/-- A future that is already resolved is never changed by `resolveFuture`
(the `not done()` guard). -/
theorem resolveFuture_preserves_resolved (fs : List (FutureId × FutureState))
    (fid f : FutureId) (v w : FutureState)
    (hw : alookup fs f = some w) (hnp : w ≠ FutureState.pending) :
    alookup (resolveFuture fs fid v) f = some w := by
  rw [resolveFuture_lookup]
  by_cases hc : alookup fs fid = some FutureState.pending ∧ fid = f
  · exfalso
    rcases hc with ⟨hp, rfl⟩
    rw [hw] at hp
    injection hp with hp
    exact hnp hp
  · simp [hc, hw]

/-! ### Deduplication-loop lemmas -/

theorem dedupLoop_cons_same (cmd : QueuedCommand) (rest : List QueuedCommand)
    (r : Int) (acc : List QueuedCommand)
    (fs : List (FutureId × FutureState)) (h : cmd.relay_number = r) :
    dedupLoop (cmd :: rest) r acc fs =
      dedupLoop rest r acc (resolveFuture fs cmd.future
        (FutureState.error TinxyError.superseded)) := by
  simp [dedupLoop, h]

theorem dedupLoop_cons_other (cmd : QueuedCommand) (rest : List QueuedCommand)
    (r : Int) (acc : List QueuedCommand)
    (fs : List (FutureId × FutureState)) (h : ¬ cmd.relay_number = r) :
    dedupLoop (cmd :: rest) r acc fs = dedupLoop rest r (acc ++ [cmd]) fs := by
  simp [dedupLoop, h]

/-- The rebuilt queue is exactly the accumulator followed by the commands for
other relays, in their original order. -/
theorem dedupLoop_fst (queue : List QueuedCommand) (r : Int)
    (acc : List QueuedCommand) (fs : List (FutureId × FutureState)) :
    (dedupLoop queue r acc fs).1 =
      acc ++ queue.filter (fun c => decide (c.relay_number ≠ r)) := by
  induction queue generalizing acc fs with
  | nil => simp [dedupLoop]
  | cons cmd rest ih =>
      by_cases h : cmd.relay_number = r
      · rw [dedupLoop_cons_same cmd rest r acc fs h, ih]
        simp [h]
      · rw [dedupLoop_cons_other cmd rest r acc fs h, ih]
        simp [h]

/-- The deduplication loop never touches an already-resolved future. -/
theorem dedupLoop_preserves_resolved (queue : List QueuedCommand) (r : Int)
    (acc : List QueuedCommand) (fs : List (FutureId × FutureState))
    (f : FutureId) (w : FutureState)
    (hw : alookup fs f = some w) (hnp : w ≠ FutureState.pending) :
    alookup (dedupLoop queue r acc fs).2 f = some w := by
  induction queue generalizing acc fs with
  | nil => simpa [dedupLoop] using hw
  | cons cmd rest ih =>
      by_cases h : cmd.relay_number = r
      · rw [dedupLoop_cons_same cmd rest r acc fs h]
        exact ih acc _ (resolveFuture_preserves_resolved _ _ _ _ _ hw hnp)
      · rw [dedupLoop_cons_other cmd rest r acc fs h]
        exact ih (acc ++ [cmd]) fs hw

/-- A future held by no same-relay command in the queue keeps its value. -/
theorem dedupLoop_preserves_other (queue : List QueuedCommand) (r : Int)
    (acc : List QueuedCommand) (fs : List (FutureId × FutureState))
    (f : FutureId)
    (hf : ∀ c ∈ queue, c.relay_number = r → c.future ≠ f) :
    alookup (dedupLoop queue r acc fs).2 f = alookup fs f := by
  induction queue generalizing acc fs with
  | nil => simp [dedupLoop]
  | cons cmd rest ih =>
      by_cases h : cmd.relay_number = r
      · rw [dedupLoop_cons_same cmd rest r acc fs h]
        rw [ih acc _ (fun c hc => hf c (List.mem_cons_of_mem _ hc))]
        rw [resolveFuture_lookup]
        have : cmd.future ≠ f := hf cmd (List.mem_cons_self _ _) h
        simp [this]
      · rw [dedupLoop_cons_other cmd rest r acc fs h]
        exact ih (acc ++ [cmd]) fs
          (fun c hc => hf c (List.mem_cons_of_mem _ hc))

/-- Every pending command for the deduplicated relay ends up resolved with the
Superseded error. -/
theorem dedupLoop_superseded (queue : List QueuedCommand) (r : Int)
    (acc : List QueuedCommand) (fs : List (FutureId × FutureState))
    (c : QueuedCommand) (hc : c ∈ queue) (hr : c.relay_number = r)
    (hp : alookup fs c.future = some FutureState.pending) :
    alookup (dedupLoop queue r acc fs).2 c.future =
      some (FutureState.error TinxyError.superseded) := by
  induction queue generalizing acc fs with
  | nil => cases hc
  | cons cmd rest ih =>
      rcases List.mem_cons.mp hc with hceq | hcrest
      · subst hceq
        rw [dedupLoop_cons_same c rest r acc fs hr]
        apply dedupLoop_preserves_resolved
        · rw [resolveFuture_lookup]; simp [hp]
        · simp
      · by_cases h : cmd.relay_number = r
        · rw [dedupLoop_cons_same cmd rest r acc fs h]
          by_cases hfid : cmd.future = c.future
          · apply dedupLoop_preserves_resolved
            · rw [resolveFuture_lookup, hfid]
              simp [hp]
            · simp
          · refine ih acc _ hcrest ?_
            rw [resolveFuture_lookup]
            simp [hfid]
            exact hp
        · rw [dedupLoop_cons_other cmd rest r acc fs h]
          exact ih (acc ++ [cmd]) fs hcrest hp

/-! ### Characterisation of the admission and worker steps -/

theorem aset_aset {α β : Type} [DecidableEq α] (l : List (α × β)) (k : α)
    (v w : β) : aset (aset l k v) k w = aset l k w := by
  induction l with
  | nil => simp [aset]
  | cons p rest ih =>
      obtain ⟨k0, v0⟩ := p
      by_cases h : k0 = k
      · simp [aset, h]
      · simp [aset, h, ih]

theorem queueCommand_shutdown (s : HubState) (d : DeviceId) (m ct : String)
    (r : Int) (a b : Option Int) (now : Int) (dd : Bool)
    (hs : s.shutdownFlag = true) :
    queueCommand s d m ct r a b now dd =
      (s, AdmitResult.raised TinxyError.shuttingDown) := by
  simp [queueCommand, hs]

theorem queueCommand_full (s : HubState) (d : DeviceId) (m ct : String)
    (r : Int) (a b : Option Int) (now : Int) (dd : Bool)
    (hs : s.shutdownFlag = false) (q : List QueuedCommand)
    (hq : alookup s.device_queues d = some q)
    (hlen : s.queue_limit ≤ q.length) :
    queueCommand s d m ct r a b now dd =
      (s, AdmitResult.raised TinxyError.queueFull) := by
  simp [queueCommand, hs, hq, hlen]

theorem queueCommand_existing (s : HubState) (d : DeviceId) (m ct : String)
    (r : Int) (a b : Option Int) (now : Int)
    (hs : s.shutdownFlag = false) (q : List QueuedCommand)
    (hq : alookup s.device_queues d = some q)
    (hlen : q.length < s.queue_limit) :
    queueCommand s d m ct r a b now true =
      ({ s with
          device_queues := aset s.device_queues d
            ((dedupLoop q r [] s.futures).1 ++
              [mkCommand ct r a b s.next_future now]),
          futures := (dedupLoop q r [] s.futures).2 ++
            [(s.next_future, FutureState.pending)],
          next_future := s.next_future + 1 },
       AdmitResult.queued s.next_future) := by
  simp [queueCommand, hs, hq, Nat.not_le.mpr hlen, mkCommand]

theorem queueCommand_new (s : HubState) (d : DeviceId) (m ct : String)
    (r : Int) (a b : Option Int) (now : Int)
    (hs : s.shutdownFlag = false)
    (hq : alookup s.device_queues d = none) (hlim : 0 < s.queue_limit) :
    queueCommand s d m ct r a b now true =
      ({ s with
          device_queues := aset s.device_queues d
            [mkCommand ct r a b s.next_future now],
          device_last_command := aset s.device_last_command d 0,
          worker_creds := aset s.worker_creds d m,
          futures := s.futures ++ [(s.next_future, FutureState.pending)],
          next_future := s.next_future + 1 },
       AdmitResult.queued s.next_future) := by
  simp [queueCommand, hs, hq, Nat.not_eq_zero_of_lt hlim, dedupLoop,
    alookup_aset, aset_aset, mkCommand]

theorem workerIter_stopped (s : HubState) (d : DeviceId) (o : WorkerIterOracle)
    (hs : s.shutdownFlag = true) : workerIter s d o = (s, WorkerEvent.stopped) := by
  simp [workerIter, hs]

theorem workerIter_idle_none (s : HubState) (d : DeviceId)
    (o : WorkerIterOracle) (hs : s.shutdownFlag = false)
    (hq : alookup s.device_queues d = none) :
    workerIter s d o = (s, WorkerEvent.idle) := by
  simp [workerIter, hs, hq]

theorem workerIter_idle_nil (s : HubState) (d : DeviceId)
    (o : WorkerIterOracle) (hs : s.shutdownFlag = false)
    (hq : alookup s.device_queues d = some []) :
    workerIter s d o = (s, WorkerEvent.idle) := by
  simp [workerIter, hs, hq]

theorem workerIter_timeout (s : HubState) (d : DeviceId)
    (o : WorkerIterOracle) (hs : s.shutdownFlag = false)
    (c : QueuedCommand) (rest : List QueuedCommand)
    (hq : alookup s.device_queues d = some (c :: rest))
    (ht : s.command_timeout < o.t_pop - c.timestamp) :
    workerIter s d o =
      ({ s with
          device_queues := aset s.device_queues d rest,
          futures := resolveFuture s.futures c.future
            (FutureState.error TinxyError.timeout) },
       WorkerEvent.timedOut c) := by
  simp [workerIter, hs, hq, ht]

theorem workerIter_exec (s : HubState) (d : DeviceId)
    (o : WorkerIterOracle) (hs : s.shutdownFlag = false)
    (c : QueuedCommand) (rest : List QueuedCommand)
    (hq : alookup s.device_queues d = some (c :: rest))
    (ht : ¬ s.command_timeout < o.t_pop - c.timestamp) :
    workerIter s d o =
      ({ s with
          device_queues := aset s.device_queues d rest,
          device_last_command := aset s.device_last_command d o.t_done,
          futures := resolveFuture s.futures c.future
            (FutureState.result (execOut c o.env).2) },
       WorkerEvent.executed c ((alookup s.worker_creds d).getD "")
         (execOut c o.env).1 (execOut c o.env).2 o.t_pop o.t_done) := by
  simp [workerIter, hs, hq, ht]

theorem queueCommand_existing_nodedup (s : HubState) (d : DeviceId)
    (m ct : String) (r : Int) (a b : Option Int) (now : Int)
    (hs : s.shutdownFlag = false) (q : List QueuedCommand)
    (hq : alookup s.device_queues d = some q)
    (hlen : q.length < s.queue_limit) :
    queueCommand s d m ct r a b now false =
      ({ s with
          device_queues := aset s.device_queues d
            (q ++ [mkCommand ct r a b s.next_future now]),
          futures := s.futures ++ [(s.next_future, FutureState.pending)],
          next_future := s.next_future + 1 },
       AdmitResult.queued s.next_future) := by
  simp [queueCommand, hs, hq, Nat.not_le.mpr hlen, mkCommand]

theorem queueCommand_new_full (s : HubState) (d : DeviceId) (m ct : String)
    (r : Int) (a b : Option Int) (now : Int) (dd : Bool)
    (hs : s.shutdownFlag = false)
    (hq : alookup s.device_queues d = none) (hlim : s.queue_limit = 0) :
    queueCommand s d m ct r a b now dd =
      ({ s with
          device_queues := aset s.device_queues d [],
          device_last_command := aset s.device_last_command d 0,
          worker_creds := aset s.worker_creds d m },
       AdmitResult.raised TinxyError.queueFull) := by
  simp [queueCommand, hs, hq, hlim, alookup_aset]

theorem queueCommand_new_any (s : HubState) (d : DeviceId) (m ct : String)
    (r : Int) (a b : Option Int) (now : Int) (dd : Bool)
    (hs : s.shutdownFlag = false)
    (hq : alookup s.device_queues d = none) (hlim : 0 < s.queue_limit) :
    queueCommand s d m ct r a b now dd =
      ({ s with
          device_queues := aset s.device_queues d
            [mkCommand ct r a b s.next_future now],
          device_last_command := aset s.device_last_command d 0,
          worker_creds := aset s.worker_creds d m,
          futures := s.futures ++ [(s.next_future, FutureState.pending)],
          next_future := s.next_future + 1 },
       AdmitResult.queued s.next_future) := by
  cases dd <;>
    simp [queueCommand, hs, hq, Nat.not_eq_zero_of_lt hlim, dedupLoop,
      alookup_aset, aset_aset, mkCommand]

/-! ### Preservation lemmas for system traces -/

theorem queueCommand_config (s : HubState) (d : DeviceId) (m ct : String)
    (r : Int) (a b : Option Int) (now : Int) (dd : Bool) :
    (queueCommand s d m ct r a b now dd).1.rate_limit_delay =
        s.rate_limit_delay ∧
    (queueCommand s d m ct r a b now dd).1.command_timeout =
        s.command_timeout ∧
    (queueCommand s d m ct r a b now dd).1.queue_limit = s.queue_limit := by
  by_cases hs : s.shutdownFlag
  · rw [queueCommand_shutdown s d m ct r a b now dd hs]
    exact ⟨rfl, rfl, rfl⟩
  · have hs' : s.shutdownFlag = false := by simpa using hs
    rcases hq : alookup s.device_queues d with _ | q
    · rcases Nat.eq_zero_or_pos s.queue_limit with hl | hl
      · rw [queueCommand_new_full s d m ct r a b now dd hs' hq hl]
        exact ⟨rfl, rfl, rfl⟩
      · rw [queueCommand_new_any s d m ct r a b now dd hs' hq hl]
        exact ⟨rfl, rfl, rfl⟩
    · by_cases hlen : s.queue_limit ≤ q.length
      · rw [queueCommand_full s d m ct r a b now dd hs' q hq hlen]
        exact ⟨rfl, rfl, rfl⟩
      · have hlen' : q.length < s.queue_limit := Nat.not_le.mp hlen
        cases dd
        · rw [queueCommand_existing_nodedup s d m ct r a b now hs' q hq hlen']
          exact ⟨rfl, rfl, rfl⟩
        · rw [queueCommand_existing s d m ct r a b now hs' q hq hlen']
          exact ⟨rfl, rfl, rfl⟩

theorem workerIter_config (s : HubState) (d : DeviceId) (o : WorkerIterOracle) :
    (workerIter s d o).1.rate_limit_delay = s.rate_limit_delay ∧
    (workerIter s d o).1.command_timeout = s.command_timeout ∧
    (workerIter s d o).1.queue_limit = s.queue_limit := by
  by_cases hs : s.shutdownFlag
  · rw [workerIter_stopped s d o hs]
    exact ⟨rfl, rfl, rfl⟩
  · have hs' : s.shutdownFlag = false := by simpa using hs
    rcases hq : alookup s.device_queues d with _ | q
    · rw [workerIter_idle_none s d o hs' hq]
      exact ⟨rfl, rfl, rfl⟩
    · rcases q with _ | ⟨c, rest⟩
      · rw [workerIter_idle_nil s d o hs' hq]
        exact ⟨rfl, rfl, rfl⟩
      · by_cases ht : s.command_timeout < o.t_pop - c.timestamp
        · rw [workerIter_timeout s d o hs' c rest hq ht]
          exact ⟨rfl, rfl, rfl⟩
        · rw [workerIter_exec s d o hs' c rest hq ht]
          exact ⟨rfl, rfl, rfl⟩

/-- Admission never changes the device's `device_last_command` timestamp (the
first admission initialises the entry to 0.0, the value `lastOf` already
reports for an absent entry of a device whose registries are in sync). -/
theorem queueCommand_lastOf (s : HubState) (d0 : DeviceId) (m ct : String)
    (r : Int) (a b : Option Int) (now : Int) (dd : Bool) (d : DeviceId)
    (hsync : lcSync s d) :
    lastOf (queueCommand s d0 m ct r a b now dd).1 d = lastOf s d := by
  by_cases hs : s.shutdownFlag
  · rw [queueCommand_shutdown s d0 m ct r a b now dd hs]
  · have hs' : s.shutdownFlag = false := by simpa using hs
    rcases hq : alookup s.device_queues d0 with _ | q
    · have hlc : lastOf s d = lastOf s d ∧ True := ⟨rfl, trivial⟩
      rcases Nat.eq_zero_or_pos s.queue_limit with hl | hl
      · rw [queueCommand_new_full s d0 m ct r a b now dd hs' hq hl]
        by_cases hd : d0 = d
        · subst hd
          have := hsync hq
          simp [lastOf, alookup_aset, this]
        · simp [lastOf, alookup_aset, hd]
      · rw [queueCommand_new_any s d0 m ct r a b now dd hs' hq hl]
        by_cases hd : d0 = d
        · subst hd
          have := hsync hq
          simp [lastOf, alookup_aset, this]
        · simp [lastOf, alookup_aset, hd]
    · by_cases hlen : s.queue_limit ≤ q.length
      · rw [queueCommand_full s d0 m ct r a b now dd hs' q hq hlen]
      · have hlen' : q.length < s.queue_limit := Nat.not_le.mp hlen
        cases dd
        · rw [queueCommand_existing_nodedup s d0 m ct r a b now hs' q hq hlen']
          rfl
        · rw [queueCommand_existing s d0 m ct r a b now hs' q hq hlen']
          rfl

theorem workerIter_lastOf_other (s : HubState) (d0 : DeviceId)
    (o : WorkerIterOracle) (d : DeviceId) (hd : d0 ≠ d) :
    lastOf (workerIter s d0 o).1 d = lastOf s d := by
  by_cases hs : s.shutdownFlag
  · rw [workerIter_stopped s d0 o hs]
  · have hs' : s.shutdownFlag = false := by simpa using hs
    rcases hq : alookup s.device_queues d0 with _ | q
    · rw [workerIter_idle_none s d0 o hs' hq]
    · rcases q with _ | ⟨c, rest⟩
      · rw [workerIter_idle_nil s d0 o hs' hq]
      · by_cases ht : s.command_timeout < o.t_pop - c.timestamp
        · rw [workerIter_timeout s d0 o hs' c rest hq ht]
          rfl
        · rw [workerIter_exec s d0 o hs' c rest hq ht]
          simp [lastOf, alookup_aset, hd]

theorem sysStep_lcSync (s : HubState) (op : SysOp) (d : DeviceId)
    (hsync : lcSync s d) : lcSync (sysStep s op).1 d := by
  cases op with
  | enqueue d0 m ct r a b now =>
      show lcSync (queueCommand s d0 m ct r a b now true).1 d
      by_cases hs : s.shutdownFlag
      · rw [queueCommand_shutdown s d0 m ct r a b now true hs]
        exact hsync
      · have hs' : s.shutdownFlag = false := by simpa using hs
        rcases hq : alookup s.device_queues d0 with _ | q
        · rcases Nat.eq_zero_or_pos s.queue_limit with hl | hl
          · rw [queueCommand_new_full s d0 m ct r a b now true hs' hq hl]
            intro h
            by_cases hd : d0 = d
            · subst hd
              simp [alookup_aset] at h
            · simp only [alookup_aset, if_neg hd] at h ⊢
              exact hsync h
          · rw [queueCommand_new_any s d0 m ct r a b now true hs' hq hl]
            intro h
            by_cases hd : d0 = d
            · subst hd
              simp [alookup_aset] at h
            · simp only [alookup_aset, if_neg hd] at h ⊢
              exact hsync h
        · by_cases hlen : s.queue_limit ≤ q.length
          · rw [queueCommand_full s d0 m ct r a b now true hs' q hq hlen]
            exact hsync
          · have hlen' : q.length < s.queue_limit := Nat.not_le.mp hlen
            rw [queueCommand_existing s d0 m ct r a b now hs' q hq hlen']
            intro h
            by_cases hd : d0 = d
            · subst hd
              simp [alookup_aset] at h
            · simp only [alookup_aset, if_neg hd] at h
              exact hsync h
  | work d0 o =>
      show lcSync (workerIter s d0 o).1 d
      by_cases hs : s.shutdownFlag
      · rw [workerIter_stopped s d0 o hs]
        exact hsync
      · have hs' : s.shutdownFlag = false := by simpa using hs
        rcases hq : alookup s.device_queues d0 with _ | q
        · rw [workerIter_idle_none s d0 o hs' hq]
          exact hsync
        · rcases q with _ | ⟨c, rest⟩
          · rw [workerIter_idle_nil s d0 o hs' hq]
            exact hsync
          · by_cases ht : s.command_timeout < o.t_pop - c.timestamp
            · rw [workerIter_timeout s d0 o hs' c rest hq ht]
              intro h
              by_cases hd : d0 = d
              · subst hd
                simp [alookup_aset] at h
              · simp only [alookup_aset, if_neg hd] at h
                exact hsync h
            · rw [workerIter_exec s d0 o hs' c rest hq ht]
              intro h
              by_cases hd : d0 = d
              · subst hd
                simp [alookup_aset] at h
              · simp only [alookup_aset, if_neg hd] at h ⊢
                exact hsync h
  | halt =>
      exact hsync

theorem deviceEvents_append (d : DeviceId) (l l' : List (DeviceId × WorkerEvent)) :
    deviceEvents d (l ++ l') = deviceEvents d l ++ deviceEvents d l' := by
  simp [deviceEvents]

/-- C6: for every device, any two consecutive command executions are separated
in wall-clock time by at least `rate_limit_delay`: in any system run whose
wall-clock samples satisfy the sleep semantics (`sysOK`), every execution of
device `d`'s worker starts at least `rate_limit_delay` after the completion
sample of the previous execution (and the first starts at least
`rate_limit_delay` after the initial `device_last_command`), regardless of how
many admissions are interleaved. -/
theorem C6_consecutive_executions_spaced (ops : List SysOp) (s : HubState)
    (d : DeviceId) (t0 : Int) (hok : sysOK s t0 ops = true)
    (hsync : lcSync s d) :
    execSpacedAux s.rate_limit_delay (some (lastOf s d))
      (deviceEvents d (sysRun s ops).2) = true := by
  induction ops generalizing s t0 with
  | nil => simp [sysRun, deviceEvents, execSpacedAux]
  | cons op rest ih =>
      rw [sysOK, Bool.and_eq_true] at hok
      obtain ⟨hop, hoks⟩ := hok
      have hsync' := sysStep_lcSync s op d hsync
      show execSpacedAux s.rate_limit_delay (some (lastOf s d))
        (deviceEvents d ((sysStep s op).2 ++ (sysRun (sysStep s op).1 rest).2)) = true
      rw [deviceEvents_append]
      cases op with
      | enqueue d0 m ct r a b now =>
          simp only [sysStep] at hoks hsync' ⊢
          have hcfg := (queueCommand_config s d0 m ct r a b now true).1
          have hlast := queueCommand_lastOf s d0 m ct r a b now true d hsync
          have h2 := ih (queueCommand s d0 m ct r a b now true).1 now hoks hsync'
          rw [hcfg, hlast] at h2
          simpa [deviceEvents] using h2
      | halt =>
          simp only [sysStep] at hoks hsync' ⊢
          have h2 := ih (shutdown s) t0 hoks hsync'
          have hd1 : (shutdown s).rate_limit_delay = s.rate_limit_delay := rfl
          have hd2 : lastOf (shutdown s) d = lastOf s d := rfl
          rw [hd1, hd2] at h2
          simpa [deviceEvents] using h2
      | work d0 o =>
          simp only [sysStep] at hoks hsync' ⊢
          by_cases hd : d0 = d
          · subst hd
            by_cases hs : s.shutdownFlag
            · rw [workerIter_stopped s d0 o hs] at hoks hsync' ⊢
              have h2 := ih s o.t_done hoks hsync'
              simpa [deviceEvents, execSpacedAux] using h2
            · have hs' : s.shutdownFlag = false := by simpa using hs
              rcases hq : alookup s.device_queues d0 with _ | q
              · rw [workerIter_idle_none s d0 o hs' hq] at hoks hsync' ⊢
                have h2 := ih s o.t_done hoks hsync'
                simpa [deviceEvents, execSpacedAux] using h2
              · rcases q with _ | ⟨c, crest⟩
                · rw [workerIter_idle_nil s d0 o hs' hq] at hoks hsync' ⊢
                  have h2 := ih s o.t_done hoks hsync'
                  simpa [deviceEvents, execSpacedAux] using h2
                · by_cases ht : s.command_timeout < o.t_pop - c.timestamp
                  · rw [workerIter_timeout s d0 o hs' c crest hq ht]
                      at hoks hsync' ⊢
                    have h2 := ih _ o.t_done hoks hsync'
                    have hδ : ({ s with
                        device_queues := aset s.device_queues d0 crest,
                        futures := resolveFuture s.futures c.future
                          (FutureState.error TinxyError.timeout) } :
                      HubState).rate_limit_delay = s.rate_limit_delay := rfl
                    have hl : lastOf ({ s with
                        device_queues := aset s.device_queues d0 crest,
                        futures := resolveFuture s.futures c.future
                          (FutureState.error TinxyError.timeout) } :
                      HubState) d0 = lastOf s d0 := rfl
                    rw [hδ, hl] at h2
                    simpa [deviceEvents, execSpacedAux] using h2
                  · rw [workerIter_exec s d0 o hs' c crest hq ht]
                      at hoks hsync' ⊢
                    have hrate : lastOf s d0 + s.rate_limit_delay ≤ o.t_pop := by
                      simp only [opOK, Bool.and_eq_true, decide_eq_true_eq] at hop
                      obtain ⟨⟨⟨h1, h2⟩, h3⟩, h4⟩ := hop
                      by_cases hlt : o.t_check - lastOf s d0 < s.rate_limit_delay
                      · simpa [hlt] using h4
                      · have h5 : s.rate_limit_delay ≤ o.t_check - lastOf s d0 :=
                          le_of_not_lt hlt
                        linarith
                    have h2 := ih _ o.t_done hoks hsync'
                    have hδ : (({ s with
                        device_queues := aset s.device_queues d0 crest,
                        device_last_command :=
                          aset s.device_last_command d0 o.t_done,
                        futures := resolveFuture s.futures c.future
                          (FutureState.result (execOut c o.env).2) } :
                      HubState)).rate_limit_delay = s.rate_limit_delay := rfl
                    have hl : lastOf (({ s with
                        device_queues := aset s.device_queues d0 crest,
                        device_last_command :=
                          aset s.device_last_command d0 o.t_done,
                        futures := resolveFuture s.futures c.future
                          (FutureState.result (execOut c o.env).2) } :
                      HubState)) d0 = o.t_done := by
                      simp [lastOf, alookup_aset]
                    rw [hδ, hl] at h2
                    simpa [deviceEvents, execSpacedAux, hrate] using h2
          · have hcfg := (workerIter_config s d0 o).1
            have hlast := workerIter_lastOf_other s d0 o d hd
            have h2 := ih (workerIter s d0 o).1 o.t_done hoks hsync'
            rw [hcfg, hlast] at h2
            simpa [deviceEvents, hd] using h2

/-! ### Claim theorems -/

/-- C6 witness: the concrete two-execution run satisfies the timing side
conditions and its executions are spaced by at least `rate_limit_delay`. -/
theorem C6_consecutive_executions_spaced_witness :
    sysOK initState 0 exOpsC6 = true ∧
    execSpacedAux initState.rate_limit_delay (some (lastOf initState "dev"))
      (deviceEvents "dev" (sysRun initState exOpsC6).2) = true := by
  constructor
  · decide
  · exact C6_consecutive_executions_spaced exOpsC6 initState "dev" 0 (by decide)
      (fun _ => rfl)

/-- C4: per-device pending queues never exceed `queue_limit`: an admission
arriving when the queue already holds `queue_limit` commands fails with the
QueueFull error and leaves the state (queue and futures) unchanged — in
particular the capacity check runs before the deduplication pass, so the
admission is rejected even when the queue holds a same-relay command that
deduplication would have removed; and any admission preserves the bound
`queueLen ≤ queue_limit` for every device. -/
theorem C4_queue_capacity (s : HubState) (d : DeviceId) (m ct : String)
    (r : Int) (a b : Option Int) (now : Int) (dd : Bool) :
    (∀ q, s.shutdownFlag = false → alookup s.device_queues d = some q →
       s.queue_limit ≤ q.length →
       queueCommand s d m ct r a b now dd =
         (s, AdmitResult.raised TinxyError.queueFull)) ∧
    (∀ d', queueLen s d' ≤ s.queue_limit →
       queueLen (queueCommand s d m ct r a b now dd).1 d' ≤ s.queue_limit) := by
  constructor
  · intro q hs hq hlen
    exact queueCommand_full s d m ct r a b now dd hs q hq hlen
  · intro d' hd'
    by_cases hs : s.shutdownFlag
    · rw [queueCommand_shutdown s d m ct r a b now dd hs]
      exact hd'
    · have hs' : s.shutdownFlag = false := by simpa using hs
      rcases hq : alookup s.device_queues d with _ | q
      · rcases Nat.eq_zero_or_pos s.queue_limit with hl | hl
        · rw [queueCommand_new_full s d m ct r a b now dd hs' hq hl]
          by_cases hdd : d = d'
          · subst hdd
            simp [queueLen, alookup_aset]
          · simpa [queueLen, alookup_aset, hdd] using hd'
        · rw [queueCommand_new_any s d m ct r a b now dd hs' hq hl]
          by_cases hdd : d = d'
          · subst hdd
            simp only [queueLen, alookup_aset, if_pos rfl, if_true,
              eq_self_iff_true, Option.getD_some, List.length_singleton]
            omega
          · simpa [queueLen, alookup_aset, hdd] using hd'
      · by_cases hlen : s.queue_limit ≤ q.length
        · rw [queueCommand_full s d m ct r a b now dd hs' q hq hlen]
          exact hd'
        · have hlen' : q.length < s.queue_limit := Nat.not_le.mp hlen
          cases dd
          · rw [queueCommand_existing_nodedup s d m ct r a b now hs' q hq hlen']
            by_cases hdd : d = d'
            · subst hdd
              simp only [queueLen, alookup_aset, if_pos rfl, if_true,
                eq_self_iff_true, Option.getD_some, List.length_append,
                List.length_singleton]
              omega
            · simpa [queueLen, alookup_aset, hdd] using hd'
          · rw [queueCommand_existing s d m ct r a b now hs' q hq hlen']
            by_cases hdd : d = d'
            · subst hdd
              simp only [queueLen, alookup_aset, if_pos rfl, if_true,
                eq_self_iff_true, Option.getD_some, List.length_append,
                List.length_singleton, dedupLoop_fst, List.nil_append]
              have hfl := List.length_filter_le
                (fun c => decide (c.relay_number ≠ r)) q
              omega
            · simpa [queueLen, alookup_aset, hdd] using hd'

/-- C4 witness: a device at capacity (limit 1) holding a same-relay pending
command still rejects a new command for that relay with QueueFull, unchanged
state. -/
theorem C4_queue_capacity_witness :
    queueCommand capState "dev" "pw" "toggle" 1 (some 1) none 5 true =
      (capState, AdmitResult.raised TinxyError.queueFull) ∧
    queueLen (queueCommand capState "dev" "pw" "toggle" 1 (some 1) none 5
      true).1 "dev" ≤ capState.queue_limit := by
  constructor
  · exact (C4_queue_capacity capState "dev" "pw" "toggle" 1 (some 1) none 5
      true).1 [mkCommand "toggle" 1 (some 1) none 0 0] rfl (by decide)
      (by decide)
  · exact (C4_queue_capacity capState "dev" "pw" "toggle" 1 (some 1) none 5
      true).2 "dev" (by decide)

/-- C5: admitting a command for relay `r` into a device's queue removes every
older command for the same relay from the queue, resolves each of their
(pending) completion futures with the Superseded error, appends the new
command at the tail — so afterwards exactly the new command waits for relay
`r`, and per-relay uniqueness of the queue is preserved. -/
theorem C5_dedup_supersede (s : HubState) (d : DeviceId) (m ct : String)
    (r : Int) (a b : Option Int) (now : Int) (q : List QueuedCommand)
    (hs : s.shutdownFlag = false)
    (hq : alookup s.device_queues d = some q)
    (hlen : q.length < s.queue_limit) :
    alookup (queueCommand s d m ct r a b now true).1.device_queues d =
      some (q.filter (fun c => decide (c.relay_number ≠ r)) ++
        [mkCommand ct r a b s.next_future now]) ∧
    (∀ c ∈ q, c.relay_number = r →
       alookup s.futures c.future = some FutureState.pending →
       alookup (queueCommand s d m ct r a b now true).1.futures c.future =
         some (FutureState.error TinxyError.superseded)) ∧
    ((q.filter (fun c => decide (c.relay_number ≠ r)) ++
        [mkCommand ct r a b s.next_future now]).filter
          (fun c => decide (c.relay_number = r)) =
      [mkCommand ct r a b s.next_future now]) ∧
    (atMostOnePerRelay q →
      atMostOnePerRelay (q.filter (fun c => decide (c.relay_number ≠ r)) ++
        [mkCommand ct r a b s.next_future now])) := by
  have hchar := queueCommand_existing s d m ct r a b now hs q hq hlen
  have hnil : List.filter (fun c => decide (c.relay_number = r))
      (List.filter (fun c => decide (c.relay_number ≠ r)) q) = [] := by
    rw [List.filter_filter]
    rw [List.filter_eq_nil_iff]
    intro c hc
    simp
  refine ⟨?_, ?_, ?_, ?_⟩
  · rw [hchar]
    simp [alookup_aset, dedupLoop_fst]
  · intro c hc hcr hp
    have hsup := dedupLoop_superseded q r [] s.futures c hc hcr hp
    rw [hchar]
    simp only [alookup_append, hsup]
  · rw [List.filter_append, hnil]
    simp [mkCommand]
  · intro hone r'
    by_cases hr' : r' = r
    · subst hr'
      rw [List.filter_append, hnil]
      simp [mkCommand]
    · rw [List.filter_append]
      have hmk : List.filter (fun c => decide (c.relay_number = r'))
          [mkCommand ct r a b s.next_future now] = [] := by
        simp [mkCommand]
        exact fun h => hr' h.symm
      rw [hmk, List.append_nil, List.filter_filter]
      have hcomm : (fun c : QueuedCommand =>
          decide (c.relay_number = r') && decide (c.relay_number ≠ r)) =
          (fun c : QueuedCommand =>
            decide (c.relay_number ≠ r) && decide (c.relay_number = r')) := by
        funext c
        exact Bool.and_comm _ _
      rw [hcomm, ← List.filter_filter]
      exact le_trans (List.length_filter_le _ _) (hone r')

/-- C5 witness: with relays 1 and 2 pending, admitting a new relay-1 command
leaves the relay-2 command followed by the new command in the queue, and
resolves the old relay-1 command's future with Superseded. -/
theorem C5_dedup_supersede_witness :
    alookup (queueCommand dedupState "dev" "pw" "toggle" 1 (some 0) none 5
        true).1.device_queues "dev" =
      some [mkCommand "toggle" 2 (some 1) none 1 0,
            mkCommand "toggle" 1 (some 0) none 2 5] ∧
    alookup (queueCommand dedupState "dev" "pw" "toggle" 1 (some 0) none 5
        true).1.futures 0 =
      some (FutureState.error TinxyError.superseded) := by
  have h := C5_dedup_supersede dedupState "dev" "pw" "toggle" 1 (some 0) none 5
    [mkCommand "toggle" 1 (some 1) none 0 0,
     mkCommand "toggle" 2 (some 1) none 1 0] rfl (by decide) (by decide)
  constructor
  · rw [h.1]
    decide
  · exact h.2.1 (mkCommand "toggle" 1 (some 1) none 0 0) (by decide) (by decide)
      (by decide)

/-- C7: a command that has waited strictly longer than `command_timeout` at
the moment it is dequeued is resolved with the Timeout error and never
executed: the iteration emits the timedOut event (not an executed event, so no
CLI call), pops the command, leaves `device_last_command` untouched and leaves
the rest of the queue for the next iteration. -/
theorem C7_stale_command_timeout (s : HubState) (d : DeviceId)
    (o : WorkerIterOracle) (c : QueuedCommand) (rest : List QueuedCommand)
    (hs : s.shutdownFlag = false)
    (hq : alookup s.device_queues d = some (c :: rest))
    (ht : s.command_timeout < o.t_pop - c.timestamp) :
    (workerIter s d o).2 = WorkerEvent.timedOut c ∧
    (alookup s.futures c.future = some FutureState.pending →
      alookup (workerIter s d o).1.futures c.future =
        some (FutureState.error TinxyError.timeout)) ∧
    alookup (workerIter s d o).1.device_queues d = some rest ∧
    (workerIter s d o).1.device_last_command = s.device_last_command := by
  rw [workerIter_timeout s d o hs c rest hq ht]
  refine ⟨rfl, ?_, ?_, rfl⟩
  · intro hp
    show alookup (resolveFuture s.futures c.future
      (FutureState.error TinxyError.timeout)) c.future = _
    rw [resolveFuture_lookup]
    simp [hp]
  · show alookup (aset s.device_queues d rest) d = some rest
    rw [alookup_aset]
    simp

/-- C7 witness: a command enqueued at tick 0 and dequeued at tick 31 (waiting
31 > 30) is discarded with the Timeout error. -/
theorem C7_stale_command_timeout_witness :
    (workerIter staleState "dev" staleOracle).2 =
      WorkerEvent.timedOut (mkCommand "toggle" 1 (some 1) none 0 0) ∧
    alookup (workerIter staleState "dev" staleOracle).1.futures 0 =
      some (FutureState.error TinxyError.timeout) := by
  have h := C7_stale_command_timeout staleState "dev" staleOracle
    (mkCommand "toggle" 1 (some 1) none 0 0) [] rfl (by decide) (by decide)
  exact ⟨h.1, h.2.1 (by decide)⟩

/-- C8: within one device the queue behaves FIFO for distinct relays: the
deduplication rebuild keeps the other-relay commands in their original
relative order (it is a filter), appends the new command at the tail, and any
two surviving commands keep their relative order; the worker always dequeues
the head of the queue. -/
theorem C8_fifo_distinct_relays (s : HubState) (d : DeviceId) (m ct : String)
    (r : Int) (a b : Option Int) (now : Int) (q : List QueuedCommand)
    (hs : s.shutdownFlag = false)
    (hq : alookup s.device_queues d = some q)
    (hlen : q.length < s.queue_limit) :
    alookup (queueCommand s d m ct r a b now true).1.device_queues d =
      some (q.filter (fun c => decide (c.relay_number ≠ r)) ++
        [mkCommand ct r a b s.next_future now]) ∧
    (∀ c1 c2 : QueuedCommand, c1.relay_number ≠ r → c2.relay_number ≠ r →
      List.Sublist [c1, c2] q →
      List.Sublist [c1, c2]
        (q.filter (fun c => decide (c.relay_number ≠ r)) ++
          [mkCommand ct r a b s.next_future now])) ∧
    (∀ (s' : HubState) (o : WorkerIterOracle) (c : QueuedCommand)
        (rest : List QueuedCommand),
      s'.shutdownFlag = false →
      alookup s'.device_queues d = some (c :: rest) →
      alookup (workerIter s' d o).1.device_queues d = some rest ∧
      ((workerIter s' d o).2 = WorkerEvent.timedOut c ∨
        ∃ cred inv res, (workerIter s' d o).2 =
          WorkerEvent.executed c cred inv res o.t_pop o.t_done)) := by
  refine ⟨?_, ?_, ?_⟩
  · rw [queueCommand_existing s d m ct r a b now hs q hq hlen]
    simp [alookup_aset, dedupLoop_fst]
  · intro c1 c2 h1 h2 hsub
    have hfil := List.Sublist.filter
      (fun c => decide (c.relay_number ≠ r)) hsub
    have heq : List.filter (fun c => decide (c.relay_number ≠ r)) [c1, c2] =
        [c1, c2] := by
      simp [h1, h2]
    rw [heq] at hfil
    exact hfil.trans (List.sublist_append_left _ _)
  · intro s' o c rest hs' hq'
    by_cases ht : s'.command_timeout < o.t_pop - c.timestamp
    · rw [workerIter_timeout s' d o hs' c rest hq' ht]
      constructor
      · show alookup (aset s'.device_queues d rest) d = some rest
        rw [alookup_aset]
        simp
      · exact Or.inl rfl
    · rw [workerIter_exec s' d o hs' c rest hq' ht]
      constructor
      · show alookup (aset s'.device_queues d rest) d = some rest
        rw [alookup_aset]
        simp
      · exact Or.inr ⟨_, _, _, rfl⟩

/-- C8 witness: admitting relay 3 to a queue holding relays 1 and 2 preserves
their order ahead of the new tail command, and the worker then dequeues the
head (the relay-1 command). -/
theorem C8_fifo_distinct_relays_witness :
    alookup (queueCommand dedupState "dev" "pw" "toggle" 3 (some 1) none 5
        true).1.device_queues "dev" =
      some [mkCommand "toggle" 1 (some 1) none 0 0,
            mkCommand "toggle" 2 (some 1) none 1 0,
            mkCommand "toggle" 3 (some 1) none 2 5] ∧
    alookup (workerIter dedupState "dev" exOracle1).1.device_queues "dev" =
      some [mkCommand "toggle" 2 (some 1) none 1 0] := by
  have h := C8_fifo_distinct_relays dedupState "dev" "pw" "toggle" 3 (some 1)
    none 5
    [mkCommand "toggle" 1 (some 1) none 0 0,
     mkCommand "toggle" 2 (some 1) none 1 0] rfl (by decide) (by decide)
  constructor
  · rw [h.1]
    decide
  · exact (h.2.2 dedupState exOracle1 (mkCommand "toggle" 1 (some 1) none 0 0)
      [mkCommand "toggle" 2 (some 1) none 1 0] rfl (by decide)).1

/-- C9: `device_last_command` is written only by a finished execution — set to
the completion-time sample whether the execution's boolean result is success
or failure — and is never updated by admission: an admission preserves every
existing entry (the first admission for a device only initialises the new
entry to the sentinel 0, never to the admission time), a timed-out dequeue
leaves the map untouched, and an execution sets the device's entry to the
completion sample `t_done`, for success and failure results alike. -/
theorem C9_last_execution_update (s : HubState) (d0 : DeviceId) (m ct : String)
    (r : Int) (a b : Option Int) (now : Int) (dd : Bool)
    (hsync : lcSync s d0) :
    (∀ d t, alookup s.device_last_command d = some t →
      alookup (queueCommand s d0 m ct r a b now dd).1.device_last_command d =
        some t) ∧
    (s.shutdownFlag = false → alookup s.device_queues d0 = none →
      alookup (queueCommand s d0 m ct r a b now dd).1.device_last_command d0 =
        some 0) ∧
    (∀ (o : WorkerIterOracle) (c : QueuedCommand) (rest : List QueuedCommand),
      s.shutdownFlag = false →
      alookup s.device_queues d0 = some (c :: rest) →
      (s.command_timeout < o.t_pop - c.timestamp →
        (workerIter s d0 o).1.device_last_command = s.device_last_command) ∧
      (¬ s.command_timeout < o.t_pop - c.timestamp →
        alookup (workerIter s d0 o).1.device_last_command d0 =
          some o.t_done)) := by
  refine ⟨?_, ?_, ?_⟩
  · intro d t hd
    by_cases hs : s.shutdownFlag
    · rw [queueCommand_shutdown s d0 m ct r a b now dd hs]
      exact hd
    · have hs' : s.shutdownFlag = false := by simpa using hs
      rcases hq : alookup s.device_queues d0 with _ | q
      · have hnone := hsync hq
        have hdne : d0 ≠ d := by
          intro hdd
          rw [hdd] at hnone
          rw [hnone] at hd
          cases hd
        rcases Nat.eq_zero_or_pos s.queue_limit with hl | hl
        · rw [queueCommand_new_full s d0 m ct r a b now dd hs' hq hl]
          show alookup (aset s.device_last_command d0 0) d = some t
          rw [alookup_aset]
          simp [hdne, hd]
        · rw [queueCommand_new_any s d0 m ct r a b now dd hs' hq hl]
          show alookup (aset s.device_last_command d0 0) d = some t
          rw [alookup_aset]
          simp [hdne, hd]
      · by_cases hlen : s.queue_limit ≤ q.length
        · rw [queueCommand_full s d0 m ct r a b now dd hs' q hq hlen]
          exact hd
        · have hlen' : q.length < s.queue_limit := Nat.not_le.mp hlen
          cases dd
          · rw [queueCommand_existing_nodedup s d0 m ct r a b now hs' q hq
              hlen']
            exact hd
          · rw [queueCommand_existing s d0 m ct r a b now hs' q hq hlen']
            exact hd
  · intro hs' hq
    rcases Nat.eq_zero_or_pos s.queue_limit with hl | hl
    · rw [queueCommand_new_full s d0 m ct r a b now dd hs' hq hl]
      show alookup (aset s.device_last_command d0 0) d0 = some 0
      rw [alookup_aset]
      simp
    · rw [queueCommand_new_any s d0 m ct r a b now dd hs' hq hl]
      show alookup (aset s.device_last_command d0 0) d0 = some 0
      rw [alookup_aset]
      simp
  · intro o c rest hs' hq
    constructor
    · intro ht
      rw [workerIter_timeout s d0 o hs' c rest hq ht]
    · intro ht
      rw [workerIter_exec s d0 o hs' c rest hq ht]
      show alookup (aset s.device_last_command d0 o.t_done) d0 = some o.t_done
      rw [alookup_aset]
      simp

/-- C9 witness: an admission with a later credential and timestamp leaves the
existing device's last-command entry at 0; an execution completing at tick 2
sets it to 2. -/
theorem C9_last_execution_update_witness :
    alookup (queueCommand dedupState "dev" "pw2" "toggle" 3 (some 1) none 7
        true).1.device_last_command "dev" = some 0 ∧
    alookup (workerIter dedupState "dev" exOracle1).1.device_last_command
      "dev" = some 2 := by
  have h := C9_last_execution_update dedupState "dev" "pw2" "toggle" 3
    (some 1) none 7 true (fun hn => absurd hn (by decide))
  constructor
  · exact h.1 "dev" 0 (by decide)
  · exact ((h.2.2 exOracle1 (mkCommand "toggle" 1 (some 1) none 0 0)
      [mkCommand "toggle" 2 (some 1) none 1 0] rfl (by decide)).2 (by decide))

/-- C10: the first admission for a device records that call's credential with
the worker it creates; admissions for an already-registered device leave every
captured credential unchanged (their own credential argument is ignored); and
every execution event carries exactly the captured credential of its device's
worker. -/
theorem C10_credential_capture (s : HubState) (d : DeviceId) (m ct : String)
    (r : Int) (a b : Option Int) (now : Int) (dd : Bool) :
    (s.shutdownFlag = false → alookup s.device_queues d = none →
      alookup (queueCommand s d m ct r a b now dd).1.worker_creds d = some m) ∧
    (alookup s.device_queues d ≠ none →
      (queueCommand s d m ct r a b now dd).1.worker_creds = s.worker_creds) ∧
    (∀ (o : WorkerIterOracle) (c : QueuedCommand) (cred : String)
        (inv res : Bool) (t1 t2 : Int),
      (workerIter s d o).2 = WorkerEvent.executed c cred inv res t1 t2 →
      cred = (alookup s.worker_creds d).getD "") := by
  refine ⟨?_, ?_, ?_⟩
  · intro hs' hq
    rcases Nat.eq_zero_or_pos s.queue_limit with hl | hl
    · rw [queueCommand_new_full s d m ct r a b now dd hs' hq hl]
      show alookup (aset s.worker_creds d m) d = some m
      rw [alookup_aset]
      simp
    · rw [queueCommand_new_any s d m ct r a b now dd hs' hq hl]
      show alookup (aset s.worker_creds d m) d = some m
      rw [alookup_aset]
      simp
  · intro hq
    by_cases hs : s.shutdownFlag
    · rw [queueCommand_shutdown s d m ct r a b now dd hs]
    · have hs' : s.shutdownFlag = false := by simpa using hs
      rcases hqq : alookup s.device_queues d with _ | q
      · exact absurd hqq hq
      · by_cases hlen : s.queue_limit ≤ q.length
        · rw [queueCommand_full s d m ct r a b now dd hs' q hqq hlen]
        · have hlen' : q.length < s.queue_limit := Nat.not_le.mp hlen
          cases dd
          · rw [queueCommand_existing_nodedup s d m ct r a b now hs' q hqq
              hlen']
          · rw [queueCommand_existing s d m ct r a b now hs' q hqq hlen']
  · intro o c cred inv res t1 t2 hev
    by_cases hs : s.shutdownFlag
    · rw [workerIter_stopped s d o hs] at hev
      cases hev
    · have hs' : s.shutdownFlag = false := by simpa using hs
      rcases hq : alookup s.device_queues d with _ | q
      · rw [workerIter_idle_none s d o hs' hq] at hev
        cases hev
      · rcases q with _ | ⟨c0, rest⟩
        · rw [workerIter_idle_nil s d o hs' hq] at hev
          cases hev
        · by_cases ht : s.command_timeout < o.t_pop - c0.timestamp
          · rw [workerIter_timeout s d o hs' c0 rest hq ht] at hev
            cases hev
          · rw [workerIter_exec s d o hs' c0 rest hq ht] at hev
            injection hev with h1 h2
            exact h2.symm ▸ rfl

/-- C10 witness: the first admission captures "pw1"; a later admission with
"pw2" leaves the captured credential unchanged; the execution event carries
the captured "pw" of its worker. -/
theorem C10_credential_capture_witness :
    alookup (queueCommand initState "dev" "pw1" "toggle" 1 (some 1) none 0
        true).1.worker_creds "dev" = some "pw1" ∧
    (queueCommand dedupState "dev" "pw2" "toggle" 3 (some 1) none 7
        true).1.worker_creds = dedupState.worker_creds ∧
    "pw" = (alookup dedupState.worker_creds "dev").getD "" := by
  refine ⟨?_, ?_, ?_⟩
  · exact (C10_credential_capture initState "dev" "pw1" "toggle" 1 (some 1)
      none 0 true).1 rfl (by decide)
  · exact (C10_credential_capture dedupState "dev" "pw2" "toggle" 3 (some 1)
      none 7 true).2.1 (by decide)
  · exact (C10_credential_capture dedupState "dev" "pw" "toggle" 1 (some 1)
      none 0 true).2.2 exOracle1 (mkCommand "toggle" 1 (some 1) none 0 0) "pw"
      true true 1 2 (by decide)

/-- C1 counterexample: a hub holding one still-queued command is shut down;
the command is still in the pending queue and its completion future is still
pending — it was NOT resolved with the shutdown error, refuting the second
half of the claim. -/
theorem C1_counterexample :
    queueLen (shutdown (queue_toggle_command initState "dev" "pw" 1 1 0).1)
      "dev" = 1 ∧
    alookup (shutdown
        (queue_toggle_command initState "dev" "pw" 1 1 0).1).futures 0 =
      some FutureState.pending := by
  decide

/-- C1 amended: after `shutdown()` every subsequent admission fails with the
ShutdownError without enqueuing (the state is returned unchanged), but
commands still in the pending queues are NOT resolved: `shutdown` only sets
the flag and cancels the workers, leaving every queue and every future exactly
as it was (still-pending completion handles stay unresolved). -/
theorem C1_amended_shutdown_behavior (s : HubState) (d : DeviceId)
    (m ct : String) (r : Int) (a b : Option Int) (now : Int) (dd : Bool) :
    queueCommand (shutdown s) d m ct r a b now dd =
      (shutdown s, AdmitResult.raised TinxyError.shuttingDown) ∧
    (shutdown s).futures = s.futures ∧
    (shutdown s).device_queues = s.device_queues := by
  exact ⟨queueCommand_shutdown (shutdown s) d m ct r a b now dd rfl, rfl, rfl⟩

/-- C2 counterexample: an admitted command is still pending after shutdown,
the stopped worker no longer processes it, and a further admission is refused
with the state unchanged — so this command's completion handle is never
resolved, refuting "resolved exactly once ... including during shutdown". -/
theorem C2_counterexample :
    alookup (shutdown
        (queue_toggle_command initState "dev" "pw" 1 1 0).1).futures 0 =
      some FutureState.pending ∧
    workerIter (shutdown (queue_toggle_command initState "dev" "pw" 1 1 0).1)
        "dev" exOracle1 =
      (shutdown (queue_toggle_command initState "dev" "pw" 1 1 0).1,
       WorkerEvent.stopped) ∧
    queueCommand (shutdown (queue_toggle_command initState "dev" "pw" 1 1 0).1)
        "dev" "pw" "toggle" 2 (some 1) none 9 true =
      (shutdown (queue_toggle_command initState "dev" "pw" 1 1 0).1,
       AdmitResult.raised TinxyError.shuttingDown) := by
  decide

/-- C2 amended: resolution is at most once — no system step ever changes an
already-resolved future; every command the worker dequeues is resolved by
that very iteration (Timeout error, or the execution's boolean result); every
pending command removed by deduplication is resolved with Superseded at that
admission; but once the shutdown flag is set every system step leaves the
state unchanged, so a command still queued at shutdown is never resolved. -/
theorem C2_amended_exactly_once (s : HubState) (d : DeviceId) :
    (∀ (op : SysOp) (f : FutureId) (w : FutureState),
      w ≠ FutureState.pending → alookup s.futures f = some w →
      alookup (sysStep s op).1.futures f = some w) ∧
    (∀ (o : WorkerIterOracle) (c : QueuedCommand) (rest : List QueuedCommand),
      s.shutdownFlag = false →
      alookup s.device_queues d = some (c :: rest) →
      alookup s.futures c.future = some FutureState.pending →
      (alookup (workerIter s d o).1.futures c.future =
        some (FutureState.error TinxyError.timeout) ∨
       ∃ res, alookup (workerIter s d o).1.futures c.future =
        some (FutureState.result res))) ∧
    (∀ (m ct : String) (r : Int) (a b : Option Int) (now : Int)
        (q : List QueuedCommand) (c : QueuedCommand),
      s.shutdownFlag = false →
      alookup s.device_queues d = some q → q.length < s.queue_limit →
      c ∈ q → c.relay_number = r →
      alookup s.futures c.future = some FutureState.pending →
      alookup (queueCommand s d m ct r a b now true).1.futures c.future =
        some (FutureState.error TinxyError.superseded)) ∧
    (∀ op : SysOp, s.shutdownFlag = true → (sysStep s op).1 = s) := by
  refine ⟨?_, ?_, ?_, ?_⟩
  · intro op f w hw hf
    cases op with
    | enqueue d0 m ct r a b now =>
        show alookup (queueCommand s d0 m ct r a b now true).1.futures f =
          some w
        by_cases hs : s.shutdownFlag
        · rw [queueCommand_shutdown s d0 m ct r a b now true hs]
          exact hf
        · have hs' : s.shutdownFlag = false := by simpa using hs
          rcases hq : alookup s.device_queues d0 with _ | q
          · rcases Nat.eq_zero_or_pos s.queue_limit with hl | hl
            · rw [queueCommand_new_full s d0 m ct r a b now true hs' hq hl]
              exact hf
            · rw [queueCommand_new_any s d0 m ct r a b now true hs' hq hl]
              show alookup (s.futures ++ [(s.next_future, FutureState.pending)])
                f = some w
              simp [alookup_append, hf]
          · by_cases hlen : s.queue_limit ≤ q.length
            · rw [queueCommand_full s d0 m ct r a b now true hs' q hq hlen]
              exact hf
            · have hlen' : q.length < s.queue_limit := Nat.not_le.mp hlen
              rw [queueCommand_existing s d0 m ct r a b now hs' q hq hlen']
              have hres := dedupLoop_preserves_resolved q r [] s.futures f w
                hf hw
              show alookup ((dedupLoop q r [] s.futures).2 ++
                [(s.next_future, FutureState.pending)]) f = some w
              simp [alookup_append, hres]
    | work d0 o =>
        show alookup (workerIter s d0 o).1.futures f = some w
        by_cases hs : s.shutdownFlag
        · rw [workerIter_stopped s d0 o hs]
          exact hf
        · have hs' : s.shutdownFlag = false := by simpa using hs
          rcases hq : alookup s.device_queues d0 with _ | q
          · rw [workerIter_idle_none s d0 o hs' hq]
            exact hf
          · rcases q with _ | ⟨c0, rest⟩
            · rw [workerIter_idle_nil s d0 o hs' hq]
              exact hf
            · by_cases ht : s.command_timeout < o.t_pop - c0.timestamp
              · rw [workerIter_timeout s d0 o hs' c0 rest hq ht]
                exact resolveFuture_preserves_resolved _ _ _ _ _ hf hw
              · rw [workerIter_exec s d0 o hs' c0 rest hq ht]
                exact resolveFuture_preserves_resolved _ _ _ _ _ hf hw
    | halt => exact hf
  · intro o c rest hs' hq hp
    by_cases ht : s.command_timeout < o.t_pop - c.timestamp
    · left
      rw [workerIter_timeout s d o hs' c rest hq ht]
      show alookup (resolveFuture s.futures c.future
        (FutureState.error TinxyError.timeout)) c.future = _
      rw [resolveFuture_lookup]
      simp [hp]
    · right
      refine ⟨(execOut c o.env).2, ?_⟩
      rw [workerIter_exec s d o hs' c rest hq ht]
      show alookup (resolveFuture s.futures c.future
        (FutureState.result (execOut c o.env).2)) c.future = _
      rw [resolveFuture_lookup]
      simp [hp]
  · intro m ct r a b now q c hs' hq hlen hc hcr hp
    rw [queueCommand_existing s d m ct r a b now hs' q hq hlen]
    have hsup := dedupLoop_superseded q r [] s.futures c hc hcr hp
    show alookup ((dedupLoop q r [] s.futures).2 ++
      [(s.next_future, FutureState.pending)]) c.future = _
    simp [alookup_append, hsup]
  · intro op hs
    cases op with
    | enqueue d0 m ct r a b now =>
        show (queueCommand s d0 m ct r a b now true).1 = s
        rw [queueCommand_shutdown s d0 m ct r a b now true hs]
    | work d0 o =>
        show (workerIter s d0 o).1 = s
        rw [workerIter_stopped s d0 o hs]
    | halt =>
        show shutdown s = s
        cases s with
        | mk qs lc wc fs nf sf cto ql rld =>
            have hsf : sf = true := hs
            subst hsf
            rfl

/-- C2-amended witness: at a concrete state a resolved future survives a
step, a dequeued pending command gets resolved, a superseded command gets the
Superseded error, and a shut-down state absorbs steps. -/
theorem C2_amended_exactly_once_witness :
    alookup (sysStep staleState (SysOp.work "dev" staleOracle)).1.futures 0 =
      some (FutureState.error TinxyError.timeout) ∨
    (alookup (workerIter dedupState "dev" exOracle1).1.futures 0 =
        some (FutureState.error TinxyError.timeout) ∨
      ∃ res, alookup (workerIter dedupState "dev" exOracle1).1.futures 0 =
        some (FutureState.result res)) := by
  right
  exact (C2_amended_exactly_once dedupState "dev").2.1 exOracle1
    (mkCommand "toggle" 1 (some 1) none 0 0)
    [mkCommand "toggle" 2 (some 1) none 1 0] rfl (by decide) (by decide)

/-- C3 counterexample: a toggle admission with the invalid action 5 is NOT
rejected: it returns a queued future and the device queue grows to hold the
command, refuting "rejected without enqueuing, queue unchanged". -/
theorem C3_counterexample :
    (queue_toggle_command initState "dev" "pw" 1 5 0).2 =
      AdmitResult.queued 0 ∧
    queueLen (queue_toggle_command initState "dev" "pw" 1 5 0).1 "dev" = 1 := by
  decide

/-- C3 amended: a toggle command whose action is neither 0 nor 1 is admitted
and enqueued like any other; the invalidity is detected only at execution
time, inside `tinxy_toggle`, which returns the failure result `False` without
invoking the device CLI, and the caller's future resolves with that result. -/
theorem C3_amended_invalid_action (s : HubState) (d : DeviceId) (m : String)
    (r act : Int) (now : Int) (q : List QueuedCommand)
    (hact : act ≠ 0 ∧ act ≠ 1)
    (hs : s.shutdownFlag = false)
    (hq : alookup s.device_queues d = some q)
    (hlen : q.length < s.queue_limit) :
    (queue_toggle_command s d m r act now).2 =
      AdmitResult.queued s.next_future ∧
    alookup (queue_toggle_command s d m r act now).1.device_queues d =
      some (q.filter (fun c => decide (c.relay_number ≠ r)) ++
        [mkCommand "toggle" r (some act) none s.next_future now]) ∧
    (∀ env : ExecEnv, tinxy_toggle env (some act) = (false, false)) ∧
    (∀ (s' : HubState) (o : WorkerIterOracle) (c : QueuedCommand)
        (rest : List QueuedCommand),
      s'.shutdownFlag = false →
      c.command_type = "toggle" → c.action = some act →
      alookup s'.device_queues d = some (c :: rest) →
      ¬ s'.command_timeout < o.t_pop - c.timestamp →
      (workerIter s' d o).2 = WorkerEvent.executed c
        ((alookup s'.worker_creds d).getD "") false false o.t_pop o.t_done ∧
      (alookup s'.futures c.future = some FutureState.pending →
        alookup (workerIter s' d o).1.futures c.future =
          some (FutureState.result false))) := by
  have henv : ∀ env : ExecEnv, tinxy_toggle env (some act) = (false, false) := by
    intro env
    have h0 : ¬ (act = 0 ∨ act = 1) := by
      intro h
      rcases h with h | h
      · exact hact.1 h
      · exact hact.2 h
    simp [tinxy_toggle, h0]
  refine ⟨?_, ?_, henv, ?_⟩
  · show (queueCommand s d m "toggle" r (some act) none now true).2 = _
    rw [queueCommand_existing s d m "toggle" r (some act) none now hs q hq
      hlen]
  · show alookup (queueCommand s d m "toggle" r (some act) none now
      true).1.device_queues d = _
    rw [queueCommand_existing s d m "toggle" r (some act) none now hs q hq
      hlen]
    simp [alookup_aset, dedupLoop_fst]
  · intro s' o c rest hs' hty hac hq' ht
    have hout : execOut c o.env = (false, false) := by
      simp [execOut, hty, hac, henv]
    rw [workerIter_exec s' d o hs' c rest hq' ht]
    constructor
    · rw [hout]
    · intro hp
      rw [hout]
      show alookup (resolveFuture s'.futures c.future
        (FutureState.result false)) c.future = _
      rw [resolveFuture_lookup]
      simp [hp]

/-- C3-amended witness: the concrete invalid-action admission is queued, and
the worker then resolves it with result `False` without invoking the CLI. -/
theorem C3_amended_invalid_action_witness :
    (queue_toggle_command emptyDevState "dev" "pw" 1 5 0).2 =
      AdmitResult.queued 0 ∧
    (workerIter invalidCmdState "dev" exOracle1).2 =
      WorkerEvent.executed (mkCommand "toggle" 1 (some 5) none 0 0) "pw" false
        false 1 2 := by
  have h := C3_amended_invalid_action emptyDevState "dev" "pw" 1 5 0 []
    (by decide) rfl (by decide) (by decide)
  constructor
  · exact h.1
  · have h4 := h.2.2.2 invalidCmdState exOracle1
      (mkCommand "toggle" 1 (some 5) none 0 0) [] rfl rfl rfl (by decide)
      (by decide)
    exact h4.1
